import Mathlib

/-!
Verification of the versioned record model of the `si` repository:
tenancy/visibility resolution, the generic versioned record store,
the ChangeSet/EditSession lifecycle, the append-only history ledger,
and commit-coordinated notification delivery.

Lifecycle types and `EditSession` operations are embedded from
`src/lib/si-model/src/edit_session.rs`; `PropKind` from
`src/lib/si-pkg/src/spec.rs`; `create_func_stub` from
`src/lib/dal/src/func/authoring/create.rs`.  The generic store, the
resolution algorithm, `ChangeSet.apply` and the commit coordinator are
not part of the available source corpus (only their tests and callers
are), so they are modelled from the specification, as flagged on each
definition.
-/

set_option linter.unusedVariables false

namespace SI

/-- Primary keys: the source generates them with the `pk!` macro as 64-bit
integers (sentinels are negative), modelled as `Int`. -/
abbrev Pk := Int

/-- From `src/lib/si-model/src/edit_session.rs`:
`pub const NO_EDIT_SESSION_PK: EditSessionPk = EditSessionPk(-1);` —
the reserved "no draft" sentinel, a concrete integer key, not a NULL column. -/
def NO_EDIT_SESSION_PK : Pk := -1

/-- Modelled from the spec: the reserved "head" sentinel for the change-set
component of the visibility triple.  Its defining module is not in the corpus;
the integration test `change_set.rs` imports it as `NO_CHANGE_SET_PK` and the
spec pairs it with the `-1` edit-session sentinel. -/
def NO_CHANGE_SET_PK : Pk := -1

/-- Tenancy scope: universal (global) or bound to one workspace. -/
inductive Tenancy
  | universal
  | workspace (id : Nat)
deriving Repr, DecidableEq

/-- Actor recorded on history events (`HistoryActor` in the source;
the tests use `HistoryActor::SystemInit`). -/
inductive HistoryActor
  | systemInit
  | user (id : Nat)
deriving Repr, DecidableEq

/-- The visibility triple `(change_set_pk, edit_session_pk, deleted)`.
On a read context `deleted` is the include-deleted flag; on a stored row it is
the tombstone flag.  Modelled from the spec (§3). -/
structure Visibility where
  change_set_pk : Pk
  edit_session_pk : Pk
  deleted : Bool
deriving Repr, DecidableEq

/-- Timestamp pair carried by lifecycle objects
(`Timestamp` in `src/lib/si-model`). -/
structure Timestamp where
  created_at : Nat
  updated_at : Nat
deriving Repr, DecidableEq

/-- From `src/lib/si-model/src/edit_session.rs`: `EditSessionStatus`. -/
inductive EditSessionStatus
  | Open
  | Canceled
  | Saved
deriving Repr, DecidableEq

/-- ChangeSet status; modelled from the spec (§3): `{Open, Applied, Abandoned}`
(the defining module is not in the corpus; the test imports
`ChangeSetStatus::Applied`). -/
inductive ChangeSetStatus
  | Open
  | Applied
  | Abandoned
deriving Repr, DecidableEq

/-- From `src/lib/si-model/src/edit_session.rs`: the `EditSession` struct. -/
structure EditSession where
  pk : Pk
  id : Pk
  name : String
  note : Option String
  status : EditSessionStatus
  change_set_pk : Pk
  tenancy : Tenancy
  timestamp : Timestamp
deriving Repr, DecidableEq

/-- ChangeSet record; modelled from the spec (§3): `id`, `name`, `note`,
`status`, `started_at`, `finished_at`, plus the tenancy every row carries. -/
structure ChangeSet where
  pk : Pk
  name : String
  note : Option String
  status : ChangeSetStatus
  tenancy : Tenancy
  started_at : Nat
  finished_at : Option Nat
deriving Repr, DecidableEq

/-- One version of a domain entity (spec §3 `Row<T>`): surrogate key assigned
by the store, stable `logical_id` across versions, persisted visibility
triple, tenancy and timestamps, entity-specific payload `P`. -/
structure Row (P : Type) where
  pk : Nat
  id : Nat
  visibility : Visibility
  tenancy : Tenancy
  created_at : Nat
  updated_at : Nat
  payload : P
deriving Repr, DecidableEq

/-- One append-only audit ledger entry (spec §3 `HistoryEvent`). -/
structure HistoryEvent (P : Type) where
  label : String
  message : String
  actor : HistoryActor
  snapshot : Option P
  tenancy : Tenancy
  timestamp : Nat
deriving Repr, DecidableEq

/-- Error taxonomy of the core (spec §7). -/
inductive SIError
  | NotFound
  | TenancyViolation
  | InvalidRelation
  | InvalidTransition
  | ApplyConflict
  | StorageError
  | NotificationDeliveryFailure
deriving Repr, DecidableEq

/-- The whole persistent state touched by one unit of work: the versioned
rows of one entity kind, the lifecycle tables, the history ledger, the
buffered (not yet delivered) notifications, and the key/clock counters.
Modelled from the spec (§2, §3). -/
structure SIState (P : Type) where
  rows : List (Row P)
  change_sets : List ChangeSet
  edit_sessions : List EditSession
  history : List (HistoryEvent P)
  notifications : List String
  next_row_pk : Nat
  next_id : Nat
  next_change_set_pk : Nat
  next_edit_session_pk : Nat
  clock : Nat
deriving Repr, DecidableEq

/-- The empty initial state (a fresh test world). -/
def initState (P : Type) : SIState P :=
  { rows := [], change_sets := [], edit_sessions := [], history := [],
    notifications := [], next_row_pk := 0, next_id := 0,
    next_change_set_pk := 0, next_edit_session_pk := 0, clock := 0 }

/-- Does a stored row match the filter of one resolution tier: same logical
id, exactly the requested `(change_set, edit_session)` pair, and live
(not tombstoned, unless deleted rows are requested)?  Modelled from the
spec (§4.2). -/
def Row.liveMatch (r : Row P) (cs es : Pk) (include_deleted : Bool)
    (id : Nat) : Bool :=
  r.id == id && r.visibility.change_set_pk == cs &&
    r.visibility.edit_session_pk == es &&
    (include_deleted || !r.visibility.deleted)

/-- Latest (highest surrogate key) row satisfying a predicate: ties between
versions of one logical id are broken by highest `pk` (spec §3). -/
def latestBy (p : Row P → Bool) : List (Row P) → Option (Row P)
  | [] => none
  | r :: rest =>
    if p r then
      match latestBy p rest with
      | none => some r
      | some b => if r.pk < b.pk then some b else some r
    else latestBy p rest

/-- Latest live row at one exact `(change_set, edit_session)` visibility pair. -/
def pickLatest (rows : List (Row P)) (cs es : Pk) (include_deleted : Bool)
    (id : Nat) : Option (Row P) :=
  latestBy (fun r => r.liveMatch cs es include_deleted id) rows

/-- Visibility resolution for reads; modelled from the spec (§4.2): three
tiers in strict priority order — the edit-session draft, then content saved
at change-set level, then head — each tier falling through to the next when
it has no match, so a draft overlays a change-set save which overlays head. -/
def resolve (rows : List (Row P)) (v : Visibility) (id : Nat) :
    Option (Row P) :=
  let tier1 :=
    if v.edit_session_pk ≠ NO_EDIT_SESSION_PK then
      pickLatest rows v.change_set_pk v.edit_session_pk v.deleted id
    else none
  match tier1 with
  | some r => some r
  | none =>
    let tier2 :=
      if v.change_set_pk ≠ NO_CHANGE_SET_PK then
        pickLatest rows v.change_set_pk NO_EDIT_SESSION_PK v.deleted id
      else none
    match tier2 with
    | some r => some r
    | none => pickLatest rows NO_CHANGE_SET_PK NO_EDIT_SESSION_PK v.deleted id

/-- Append one immutable ledger entry (spec §4.4 `record`); the ledger has no
update or delete operation. -/
def recordHistory (h : List (HistoryEvent P)) (e : HistoryEvent P) :
    List (HistoryEvent P) :=
  h ++ [e]

def findChangeSet (s : SIState P) (pk : Pk) : Option ChangeSet :=
  s.change_sets.find? (fun c => c.pk == pk)

def findEditSession (s : SIState P) (pk : Pk) : Option EditSession :=
  s.edit_sessions.find? (fun e => e.pk == pk)

/-- `ChangeSet::new` (spec §4.6): creates a change set with status `Open`,
appends one history event in the same transaction and buffers a
"created" notification.  Modelled from the spec (the `change_set` module
is not in the corpus; only its integration test is). -/
def ChangeSet.create (s : SIState P) (tenancy : Tenancy)
    (actor : HistoryActor) (name : String) (note : Option String) :
    SIState P × ChangeSet :=
  let cs : ChangeSet :=
    { pk := (s.next_change_set_pk : Int), name := name, note := note,
      status := .Open, tenancy := tenancy, started_at := s.clock,
      finished_at := none }
  let ev : HistoryEvent P :=
    { label := "change_set.create", message := "Change Set created",
      actor := actor, snapshot := none, tenancy := tenancy,
      timestamp := s.clock }
  ({ s with
      change_sets := s.change_sets ++ [cs],
      history := recordHistory s.history ev,
      notifications := s.notifications ++ ["change_set.create"],
      next_change_set_pk := s.next_change_set_pk + 1,
      clock := s.clock + 1 }, cs)

/-- `EditSession::new`, from `src/lib/si-model/src/edit_session.rs`: the Rust
side calls `edit_session_create_v1` (status `Open`), publishes the object on
the transaction-buffered bus and appends one `edit_session.create` history
event.  The database function itself is not in the corpus; per the spec
(§4.5) opening fails when the referenced ChangeSet is not Open. -/
def EditSession.new (s : SIState P) (tenancy : Tenancy)
    (actor : HistoryActor) (change_set_pk : Pk) (name : String)
    (note : Option String) : Except SIError (SIState P × EditSession) :=
  match findChangeSet s change_set_pk with
  | none => .error .NotFound
  | some cs =>
    if cs.status = .Open then
      let es : EditSession :=
        { pk := (s.next_edit_session_pk : Int),
          id := (s.next_edit_session_pk : Int), name := name, note := note,
          status := .Open, change_set_pk := change_set_pk,
          tenancy := tenancy,
          timestamp := { created_at := s.clock, updated_at := s.clock } }
      let ev : HistoryEvent P :=
        { label := "edit_session.create", message := "Edit Session created",
          actor := actor, snapshot := none, tenancy := tenancy,
          timestamp := s.clock }
      .ok ({ s with
              edit_sessions := s.edit_sessions ++ [es],
              history := recordHistory s.history ev,
              notifications := s.notifications ++ ["edit_session.create"],
              next_edit_session_pk := s.next_edit_session_pk + 1,
              clock := s.clock + 1 }, es)
    else .error .InvalidTransition

/-- `EditSession::save`, from `src/lib/si-model/src/edit_session.rs`: the Rust
side calls `edit_session_save_v1`, takes the returned `timestamp_updated_at`,
sets `self.timestamp.updated_at` to it and `self.status` to `Saved`, then
appends one `edit_session.save` history event.  The database function itself
is not in the corpus; per the spec (§4.5) save is a pure status transition
Open→Saved — no row data is migrated — and fails when the session is not
currently Open (`InvalidTransition`, spec §7). -/
def EditSession.save (s : SIState P) (actor : HistoryActor) (es_pk : Pk) :
    Except SIError (SIState P × EditSession) :=
  match findEditSession s es_pk with
  | none => .error .NotFound
  | some es =>
    if es.status = .Open then
      let es' : EditSession :=
        { es with status := .Saved,
                  timestamp := { es.timestamp with updated_at := s.clock } }
      let ev : HistoryEvent P :=
        { label := "edit_session.save", message := "Edit Session saved",
          actor := actor, snapshot := none, tenancy := es.tenancy,
          timestamp := s.clock }
      .ok ({ s with
              edit_sessions :=
                s.edit_sessions.map (fun e => if e.pk == es_pk then es' else e),
              history := recordHistory s.history ev,
              notifications := s.notifications ++ ["edit_session.save"],
              clock := s.clock + 1 }, es')
    else .error .InvalidTransition

/-- Generic store `create` (spec §4.3): allocates a fresh `logical_id`,
writes the first version under the active visibility, stamps `created_at`
and `updated_at`, appends one history event in the same transaction. -/
def createRow (s : SIState P) (tenancy : Tenancy) (actor : HistoryActor)
    (v : Visibility) (payload : P) : SIState P × Row P :=
  let r : Row P :=
    { pk := s.next_row_pk, id := s.next_id,
      visibility := { change_set_pk := v.change_set_pk,
                      edit_session_pk := v.edit_session_pk, deleted := false },
      tenancy := tenancy, created_at := s.clock, updated_at := s.clock,
      payload := payload }
  let ev : HistoryEvent P :=
    { label := "entity.create", message := "Entity created", actor := actor,
      snapshot := some payload, tenancy := tenancy, timestamp := s.clock }
  ({ s with
      rows := s.rows ++ [r],
      history := recordHistory s.history ev,
      notifications := s.notifications ++ ["entity.create"],
      next_row_pk := s.next_row_pk + 1,
      next_id := s.next_id + 1,
      clock := s.clock + 1 }, r)

/-- Generic store `update` (spec §4.2/§4.3): resolves the current live row,
applies the mutator to its payload, and inserts a **new** version with a
fresh surrogate key under the current visibility — never mutating the
resolved row in place; `created_at` is carried forward, `updated_at`
refreshed.  Modelled from the spec. -/
def updateRow (s : SIState P) (tenancy : Tenancy) (actor : HistoryActor)
    (v : Visibility) (id : Nat) (mutator : P → P) :
    Except SIError (SIState P × Row P) :=
  match resolve s.rows v id with
  | none => .error .NotFound
  | some r =>
    let r' : Row P :=
      { r with pk := s.next_row_pk,
               visibility := { change_set_pk := v.change_set_pk,
                               edit_session_pk := v.edit_session_pk,
                               deleted := false },
               payload := mutator r.payload, updated_at := s.clock }
    let ev : HistoryEvent P :=
      { label := "entity.update", message := "Entity updated", actor := actor,
        snapshot := some r'.payload, tenancy := tenancy, timestamp := s.clock }
    .ok ({ s with
            rows := s.rows ++ [r'],
            history := recordHistory s.history ev,
            notifications := s.notifications ++ ["entity.update"],
            next_row_pk := s.next_row_pk + 1,
            clock := s.clock + 1 }, r')

/-- Generic store `soft_delete` (spec §4.2/§4.3): inserts a new version with
the tombstone flag set and the payload otherwise unchanged, preserving all
previous versions.  Modelled from the spec. -/
def softDeleteRow (s : SIState P) (tenancy : Tenancy) (actor : HistoryActor)
    (v : Visibility) (id : Nat) : Except SIError (SIState P × Row P) :=
  match resolve s.rows v id with
  | none => .error .NotFound
  | some r =>
    let r' : Row P :=
      { r with pk := s.next_row_pk,
               visibility := { change_set_pk := v.change_set_pk,
                               edit_session_pk := v.edit_session_pk,
                               deleted := true },
               updated_at := s.clock }
    let ev : HistoryEvent P :=
      { label := "entity.delete", message := "Entity deleted", actor := actor,
        snapshot := some r'.payload, tenancy := tenancy, timestamp := s.clock }
    .ok ({ s with
            rows := s.rows ++ [r'],
            history := recordHistory s.history ev,
            notifications := s.notifications ++ ["entity.delete"],
            next_row_pk := s.next_row_pk + 1,
            clock := s.clock + 1 }, r')

/-- Is the edit session with this key currently `Saved`? -/
def sessionSaved (s : SIState P) (es_pk : Pk) : Bool :=
  match findEditSession s es_pk with
  | some es => es.status == .Saved
  | none => false

/-- Is a row part of this change set's pending content (spec §4.5/§4.6):
written under this change set, live, and either saved at change-set level
(`edit_session = no-draft`) or drafted under a now-`Saved` edit session?
(Save performs no data migration, so content saved by an edit session still
carries its session's key.)  Modelled from the spec. -/
def pendingRow (s : SIState P) (cs_pk : Pk) (r : Row P) : Bool :=
  r.visibility.change_set_pk == cs_pk && !r.visibility.deleted &&
    (r.visibility.edit_session_pk == NO_EDIT_SESSION_PK ||
      sessionSaved s r.visibility.edit_session_pk)

/-- The logical ids with pending content in this change set. -/
def pendingIds (s : SIState P) (cs_pk : Pk) : List Nat :=
  ((s.rows.filter (pendingRow s cs_pk)).map Row.id).dedup

/-- The latest pending version of one logical id in this change set. -/
def pendingSrc (s : SIState P) (cs_pk : Pk) (id : Nat) : Option (Row P) :=
  latestBy (fun r => pendingRow s cs_pk r && r.id == id) s.rows

/-- Merge-time conflict check (spec §4.6): has head's version of this logical
id been mutated since this change set was opened? -/
def headConflict (s : SIState P) (started_at : Nat) (id : Nat) : Bool :=
  s.rows.any (fun r =>
    r.id == id && r.visibility.change_set_pk == NO_CHANGE_SET_PK &&
      r.visibility.edit_session_pk == NO_EDIT_SESSION_PK &&
      decide (started_at < r.updated_at))

/-- New head versions for the promoted source rows: each gets the next fresh
surrogate key, the head visibility sentinels, a refreshed `updated_at`, and
the payload copied unchanged. -/
def promoteRows : List (Row P) → Nat → Nat → List (Row P)
  | [], _, _ => []
  | r :: rest, pk0, t =>
    { r with pk := pk0,
             visibility := { change_set_pk := NO_CHANGE_SET_PK,
                             edit_session_pk := NO_EDIT_SESSION_PK,
                             deleted := r.visibility.deleted },
             updated_at := t } :: promoteRows rest (pk0 + 1) t

/-- `ChangeSet::apply` (spec §4.6): fails with `InvalidTransition` unless the
change set is Open; aborts whole with `ApplyConflict` when head moved under
any pending logical id since the change set was opened; otherwise writes, for
every pending logical id, one new head version copying the payload unchanged,
stamps `finished_at`, sets status `Applied`, appends one history event and
buffers a notification.  Modelled from the spec (the module is not in the
corpus; only its integration test is). -/
def ChangeSet.apply (s : SIState P) (actor : HistoryActor) (cs_pk : Pk) :
    Except SIError (SIState P × ChangeSet) :=
  match findChangeSet s cs_pk with
  | none => .error .NotFound
  | some cs =>
    if cs.status = .Open then
      if (pendingIds s cs_pk).any (headConflict s cs.started_at) then
        .error .ApplyConflict
      else
        let srcs := (pendingIds s cs_pk).filterMap (pendingSrc s cs_pk)
        let promoted := promoteRows srcs s.next_row_pk s.clock
        let cs' : ChangeSet :=
          { cs with status := .Applied, finished_at := some s.clock }
        let ev : HistoryEvent P :=
          { label := "change_set.apply", message := "Change Set applied",
            actor := actor, snapshot := none, tenancy := cs.tenancy,
            timestamp := s.clock }
        .ok ({ s with
                rows := s.rows ++ promoted,
                change_sets :=
                  s.change_sets.map (fun c => if c.pk == cs_pk then cs' else c),
                history := recordHistory s.history ev,
                notifications := s.notifications ++ ["change_set.apply"],
                next_row_pk := s.next_row_pk + srcs.length,
                clock := s.clock + 1 }, cs')
    else .error .InvalidTransition

/-- One unit of work's in-memory notification buffer (spec §4.7
`CommitCoordinator`): events enqueued during the unit of work, no I/O yet.
Modelled from the spec (the transaction layer — `ctx.commit()`,
`publish_on_commit` — is not in the corpus; only callers such as
`src/lib/sdf-server/src/server/service/diagram/restore_connection.rs` are). -/
structure WorkUnit (E : Type) where
  buffer : List E
deriving Repr, DecidableEq

/-- `begin()`: a fresh unit of work with an empty notification buffer. -/
def beginUnit (E : Type) : WorkUnit E := { buffer := [] }

/-- `enqueue_notification(event)`: buffers an outbound event in memory. -/
def enqueue_notification (u : WorkUnit E) (e : E) : WorkUnit E :=
  { buffer := u.buffer ++ [e] }

/-- The external message-bus collaborator, recording every publish call. -/
structure Bus (E : Type) where
  log : List E
deriving Repr, DecidableEq

/-- One publish call to the message bus. -/
def flushOne (b : Bus E) (e : E) : Bus E := { log := b.log ++ [e] }

/-- Flush a buffer to the bus: one publish call per buffered event, in order. -/
def flushAll (b : Bus E) (buf : List E) : Bus E := buf.foldl flushOne b

/-- `commit()` (spec §4.7): commits the underlying transaction
(`txn_ok` is the outcome of the database commit); only on success are the
buffered notifications flushed, in enqueue order, to the message bus.  On
failure the transaction error propagates and the buffer is discarded, the
bus untouched.  Modelled from the spec. -/
def commitUnit (u : WorkUnit E) (txn_ok : Bool) (b : Bus E) :
    Except SIError Unit × Bus E :=
  if txn_ok then (.ok (), flushAll b u.buffer)
  else (.error .StorageError, b)

/-- `rollback()` / drop-without-commit (spec §4.7): discards the transaction
and the buffered notifications; the bus is never touched. -/
def rollbackUnit (u : WorkUnit E) (b : Bus E) : Bus E := b

/-- From `src/lib/si-pkg/src/spec.rs`: `PropKind`. -/
inductive PropKind
  | array
  | boolean
  | integer
  | map
  | object
  | qualification
  | codeGeneration
  | confirmation
  | string
  | json
  | validation
  | workflow
  | command
deriving Repr, DecidableEq

/-- Container kinds may own child props (spec §4.3: a "parent prop" relation
requires the parent to be of a container kind); the rest are leaf kinds. -/
def PropKind.isContainer : PropKind → Bool
  | .array | .map | .object => true
  | _ => false

/-- A prop as seen by the parent/child relation (id, name, kind). -/
structure PropRow where
  id : Nat
  name : String
  kind : PropKind
deriving Repr, DecidableEq

/-- `Prop::set_parent_prop` / the store's `relate` for the "parent prop"
relation kind; modelled from the spec (§4.3): writes a join-table row, but
enforces the structural invariant that the parent is of a container kind,
failing with `InvalidRelation` (not a generic storage error) otherwise —
the `Prop` module is not in the corpus, only its integration test
`src/lib/dal/tests/integration_test/prop.rs` is.  Returns the outcome and
the (possibly extended) relation table. -/
def setParentProp (props : List PropRow) (relations : List (Nat × Nat))
    (child_id parent_id : Nat) : Except SIError Unit × List (Nat × Nat) :=
  match props.find? (fun p => p.id == parent_id) with
  | none => (.error .NotFound, relations)
  | some parent =>
    if parent.kind.isContainer then
      (.ok (), relations ++ [(child_id, parent_id)])
    else
      (.error .InvalidRelation, relations)

/-- From `src/lib/dal/src/func/authoring/create.rs`: the variants of
`FuncAuthoringError` relevant here, plus a representative of an underlying
storage-layer constraint-violation error for comparison. -/
inductive FuncAuthoringError
  | FuncNameExists (name : String)
  | InvalidFuncKindForCreation
  | Storage (message : String)
deriving Repr, DecidableEq

/-- Is this result a storage-layer (constraint violation) failure? -/
def resultIsStorage : Except FuncAuthoringError α → Bool
  | .error (.Storage _) => true
  | _ => false

/-- A function row as written by `create_func_stub` (name, handler, code;
the base64 encoding of the code is elided — it is injective and plays no
role in name uniqueness). -/
structure Func where
  id : Nat
  name : String
  handler : Option String
  code : Option String
deriving Repr, DecidableEq

/-- The funcs table. -/
structure FuncTable where
  funcs : List Func
  next_id : Nat
deriving Repr, DecidableEq

/-- `Func::find_by_name` as used by `create_func_stub`. -/
def find_by_name (t : FuncTable) (name : String) : Option Func :=
  t.funcs.find? (fun f => f.name == name)

/-- From `src/lib/dal/src/func/authoring/create.rs`, `create_func_stub`:
takes the requested name (or a generated one — passed here as `fresh_name`),
and if `Func::find_by_name` finds an existing func of that name returns
`Err(FuncAuthoringError::FuncNameExists(name))` **before any write**;
otherwise writes the new func row. -/
def create_func_stub (t : FuncTable) (name : Option String)
    (fresh_name : String) (code handler : String) :
    Except FuncAuthoringError Func × FuncTable :=
  let name := name.getD fresh_name
  match find_by_name t name with
  | some _ => (.error (.FuncNameExists name), t)
  | none =>
    let f : Func := { id := t.next_id, name := name, handler := some handler,
                      code := some code }
    (.ok f, { funcs := t.funcs ++ [f], next_id := t.next_id + 1 })

/-- Key-allocation sanity of a state: every surrogate key, logical id and
lifecycle key already in use is strictly below its allocator's next value
(true of the auto-incrementing serials of the storage layout, spec §6). -/
def WellFormed (s : SIState P) : Prop :=
  (∀ r ∈ s.rows, r.pk < s.next_row_pk ∧ r.id < s.next_id ∧
      r.visibility.change_set_pk < (s.next_change_set_pk : Int)) ∧
  (∀ c ∈ s.change_sets, c.pk < (s.next_change_set_pk : Int)) ∧
  (∀ e ∈ s.edit_sessions, e.pk < (s.next_edit_session_pk : Int))

/-- The head read context: both sentinels, deleted rows excluded. -/
def headVisibility : Visibility :=
  { change_set_pk := NO_CHANGE_SET_PK, edit_session_pk := NO_EDIT_SESSION_PK,
    deleted := false }

/-- The §8 scenario: create a ChangeSet, open an EditSession under it, create
an entity under visibility `(cs, es)`, save the session, apply the change
set.  Returns the final state, the drafted row and the applied change set. -/
def c1Scenario (s₀ : SIState P) (tenancy : Tenancy) (actor : HistoryActor)
    (cs_name es_name : String) (payload : P) :
    Except SIError (SIState P × Row P × ChangeSet) :=
  let step₁ := ChangeSet.create s₀ tenancy actor cs_name none
  let s₁ := step₁.1
  let cs := step₁.2
  match EditSession.new s₁ tenancy actor cs.pk es_name none with
  | .error e => .error e
  | .ok (s₂, es) =>
    let step₃ := createRow s₂ tenancy actor
      { change_set_pk := cs.pk, edit_session_pk := es.pk, deleted := false }
      payload
    let s₃ := step₃.1
    let draft := step₃.2
    match EditSession.save s₃ actor es.pk with
    | .error e => .error e
    | .ok (s₄, _) =>
      match ChangeSet.apply s₄ actor cs.pk with
      | .error e => .error e
      | .ok (s₅, cs') => .ok (s₅, draft, cs')

/-- A fallback edit session value for total projections out of `Except`. -/
def dummySession : EditSession :=
  { pk := 0, id := 0, name := "", note := none, status := .Open,
    change_set_pk := 0, tenancy := .universal,
    timestamp := { created_at := 0, updated_at := 0 } }

/-- Concrete world used by the witnesses: one change set "C1" with one open
edit session "E1", built by the operations themselves from the empty state. -/
def sampleOpen : SIState Nat × EditSession :=
  let step₁ := ChangeSet.create (initState Nat) .universal .systemInit "C1" none
  match EditSession.new step₁.1 .universal .systemInit step₁.2.pk "E1" none with
  | .ok p => p
  | .error _ => (initState Nat, dummySession)

/-- The sample world after drafting one row under `(C1, E1)`. -/
def sampleDrafted : SIState Nat × Row Nat :=
  createRow sampleOpen.1 .universal .systemInit
    { change_set_pk := 0, edit_session_pk := 0, deleted := false } 7

/-- The sample world after saving the edit session. -/
def sampleSaved : SIState Nat × EditSession :=
  match EditSession.save sampleDrafted.1 .systemInit sampleOpen.2.pk with
  | .ok p => p
  | .error _ => (initState Nat, dummySession)

/-- The sample world after applying the change set. -/
def sampleApplied : SIState Nat × ChangeSet :=
  match ChangeSet.apply sampleSaved.1 .systemInit 0 with
  | .ok p => p
  | .error _ =>
    (initState Nat,
      { pk := 0, name := "", note := none, status := .Open,
        tenancy := .universal, started_at := 0, finished_at := none })

/-- A fallback row value for total projections out of `Except`. -/
def dummyRow : Row Nat :=
  { pk := 0, id := 0,
    visibility := { change_set_pk := 0, edit_session_pk := 0, deleted := false },
    tenancy := .universal, created_at := 0, updated_at := 0, payload := 0 }

/-- The sample world after updating the promoted head row. -/
def sampleUpdated : SIState Nat × Row Nat :=
  match updateRow sampleApplied.1 .universal .systemInit
      { change_set_pk := -1, edit_session_pk := -1, deleted := false } 0
      (fun x => x + 1) with
  | .ok p => p
  | .error _ => (initState Nat, dummyRow)

/-- Concrete funcs table used by witnesses: one existing func named "a". -/
def sampleFuncTable : FuncTable :=
  { funcs := [{ id := 0, name := "a", handler := none, code := none }],
    next_id := 1 }

/-- Concrete props used by witnesses: a leaf-kind (string) would-be parent
and an object-kind child, as in the `parent_props_wrong_prop_kinds` test. -/
def samplePropList : List PropRow :=
  [{ id := 1, name := "leafParent", kind := .string },
   { id := 2, name := "objectChild", kind := .object }]

/-! ### Supporting lemmas -/

theorem latestBy_mem {P : Type} {p : Row P → Bool} {rows : List (Row P)}
    {r : Row P} (h : latestBy p rows = some r) : r ∈ rows ∧ p r = true := by
  induction rows with
  | nil => simp [latestBy] at h
  | cons x rest ih =>
    simp only [latestBy] at h
    by_cases hx : p x
    · rw [if_pos hx] at h
      rcases hb : latestBy p rest with _ | b
      · rw [hb] at h
        injection h with h
        subst h
        exact ⟨List.mem_cons_self _ _, hx⟩
      · simp only [hb] at h
        by_cases hpk : x.pk < b.pk
        · rw [if_pos hpk] at h
          injection h with h
          subst h
          rcases ih hb with ⟨hm, hp⟩
          exact ⟨List.mem_cons_of_mem _ hm, hp⟩
        · rw [if_neg hpk] at h
          injection h with h
          subst h
          exact ⟨List.mem_cons_self _ _, hx⟩
    · rw [if_neg hx] at h
      rcases ih h with ⟨hm, hp⟩
      exact ⟨List.mem_cons_of_mem _ hm, hp⟩

theorem latestBy_none {P : Type} {p : Row P → Bool} {rows : List (Row P)}
    (h : ∀ r ∈ rows, p r = false) : latestBy p rows = none := by
  induction rows with
  | nil => rfl
  | cons x rest ih =>
    have hx : p x = false := h x (List.mem_cons_self _ _)
    simp only [latestBy, hx, Bool.false_eq_true, if_false]
    exact ih (fun r hr => h r (List.mem_cons_of_mem _ hr))

theorem latestBy_append_left {P : Type} {p : Row P → Bool}
    {xs ys : List (Row P)} (h : ∀ r ∈ xs, p r = false) :
    latestBy p (xs ++ ys) = latestBy p ys := by
  induction xs with
  | nil => rfl
  | cons x rest ih =>
    have hx : p x = false := h x (List.mem_cons_self _ _)
    simp only [List.cons_append, latestBy, hx, Bool.false_eq_true, if_false]
    exact ih (fun r hr => h r (List.mem_cons_of_mem _ hr))

theorem promoteRows_mem {P : Type} {srcs : List (Row P)} {pk0 t : Nat}
    {r' : Row P} (h : r' ∈ promoteRows srcs pk0 t) :
    pk0 ≤ r'.pk ∧ r'.visibility.change_set_pk = NO_CHANGE_SET_PK ∧
      r'.visibility.edit_session_pk = NO_EDIT_SESSION_PK ∧
      ∃ src ∈ srcs, r'.id = src.id ∧ r'.payload = src.payload := by
  induction srcs generalizing pk0 with
  | nil => simp [promoteRows] at h
  | cons x rest ih =>
    simp only [promoteRows, List.mem_cons] at h
    rcases h with h | h
    · subst h
      exact ⟨Nat.le_refl _, rfl, rfl, x, List.mem_cons_self _ _, rfl, rfl⟩
    · rcases ih h with ⟨hle, hcs, hes, src, hm, hid, hp⟩
      exact ⟨Nat.le_of_succ_le hle, hcs, hes, src,
        List.mem_cons_of_mem _ hm, hid, hp⟩

theorem promoteRows_length {P : Type} (srcs : List (Row P)) (pk0 t : Nat) :
    (promoteRows srcs pk0 t).length = srcs.length := by
  induction srcs generalizing pk0 with
  | nil => rfl
  | cons x rest ih => simp [promoteRows, ih]

theorem map_replace_of_ne {l : List EditSession} {pk : Pk}
    (h : ∀ e ∈ l, e.pk ≠ pk) (x : EditSession) :
    l.map (fun e => if e.pk == pk then x else e) = l := by
  induction l with
  | nil => rfl
  | cons y rest ih =>
    have hy : (y.pk == pk) = false :=
      beq_eq_false_iff_ne.mpr (h y (List.mem_cons_self _ _))
    simp only [List.map_cons, hy, Bool.false_eq_true, if_false]
    rw [ih (fun e he => h e (List.mem_cons_of_mem _ he))]

theorem int_beq_false_of_lt {a b : Int} (h : a < b) : (a == b) = false :=
  beq_eq_false_iff_ne.mpr (ne_of_lt h)

theorem nat_beq_false_of_lt {a b : Nat} (h : a < b) : (a == b) = false :=
  beq_eq_false_iff_ne.mpr (Nat.ne_of_lt h)

theorem find?_append_singleton {α : Type} {l : List α} {p : α → Bool} {x : α}
    (hl : ∀ y ∈ l, p y = false) (hx : p x = true) :
    (l ++ [x]).find? p = some x := by
  rw [List.find?_append, List.find?_eq_none.mpr]
  · rw [List.find?_cons_of_pos _ hx]
    rfl
  · intro y hy
    simp [hl y hy]

theorem pickLatest_mem {P : Type} {rows : List (Row P)} {cs es : Pk}
    {incl : Bool} {id : Nat} {r : Row P}
    (h : pickLatest rows cs es incl id = some r) :
    r ∈ rows ∧ r.id = id ∧ r.visibility.change_set_pk = cs ∧
      r.visibility.edit_session_pk = es := by
  rcases latestBy_mem h with ⟨hm, hp⟩
  simp only [Row.liveMatch, Bool.and_eq_true, beq_iff_eq] at hp
  exact ⟨hm, hp.1.1.1, hp.1.1.2, hp.1.2⟩

theorem resolve_cases {P : Type} {rows : List (Row P)} {v : Visibility}
    {id : Nat} {r : Row P} (h : resolve rows v id = some r) :
    pickLatest rows v.change_set_pk v.edit_session_pk v.deleted id = some r ∨
    pickLatest rows v.change_set_pk NO_EDIT_SESSION_PK v.deleted id = some r ∨
    pickLatest rows NO_CHANGE_SET_PK NO_EDIT_SESSION_PK v.deleted id = some r := by
  simp only [resolve] at h
  by_cases h1 : v.edit_session_pk ≠ NO_EDIT_SESSION_PK
  · rw [if_pos h1] at h
    rcases ht1 : pickLatest rows v.change_set_pk v.edit_session_pk v.deleted id
        with _ | r1
    · rw [ht1] at h
      by_cases h2 : v.change_set_pk ≠ NO_CHANGE_SET_PK
      · rw [if_pos h2] at h
        rcases ht2 : pickLatest rows v.change_set_pk NO_EDIT_SESSION_PK
            v.deleted id with _ | r2
        · rw [ht2] at h
          exact Or.inr (Or.inr h)
        · simp only [ht2] at h
          exact Or.inr (Or.inl h)
      · rw [if_neg h2] at h
        exact Or.inr (Or.inr h)
    · simp only [ht1] at h
      exact Or.inl h
  · rw [if_neg h1] at h
    by_cases h2 : v.change_set_pk ≠ NO_CHANGE_SET_PK
    · rw [if_pos h2] at h
      rcases ht2 : pickLatest rows v.change_set_pk NO_EDIT_SESSION_PK
          v.deleted id with _ | r2
      · rw [ht2] at h
        exact Or.inr (Or.inr h)
      · simp only [ht2] at h
        exact Or.inr (Or.inl h)
    · rw [if_neg h2] at h
      exact Or.inr (Or.inr h)

theorem resolve_mem {P : Type} {rows : List (Row P)} {v : Visibility}
    {id : Nat} {r : Row P} (h : resolve rows v id = some r) :
    r ∈ rows ∧ r.id = id := by
  rcases resolve_cases h with h' | h' | h' <;>
    exact ⟨(pickLatest_mem h').1, (pickLatest_mem h').2.1⟩

theorem resolve_no_draft {P : Type} {rows : List (Row P)} {v : Visibility}
    {id : Nat} {r : Row P} (hv : v.edit_session_pk = NO_EDIT_SESSION_PK)
    (h : resolve rows v id = some r) :
    r.visibility.edit_session_pk = NO_EDIT_SESSION_PK := by
  rcases resolve_cases h with h' | h' | h'
  · rw [← hv]
    exact (pickLatest_mem h').2.2.2
  · exact (pickLatest_mem h').2.2.2
  · exact (pickLatest_mem h').2.2.2

theorem enqueue_foldl_buffer {E : Type} (es : List E) (u : WorkUnit E) :
    (es.foldl enqueue_notification u).buffer = u.buffer ++ es := by
  induction es generalizing u with
  | nil => simp
  | cons e rest ih =>
    simp only [List.foldl_cons, ih, enqueue_notification]
    simp

theorem flushAll_log {E : Type} (buf : List E) (b : Bus E) :
    (flushAll b buf).log = b.log ++ buf := by
  induction buf generalizing b with
  | nil => simp [flushAll]
  | cons e rest ih =>
    simp only [flushAll, List.foldl_cons] at ih ⊢
    rw [ih]
    simp [flushOne]

theorem save_ok_inv {P : Type} {s : SIState P} {a : HistoryActor} {pk : Pk}
    {s₁ : SIState P} {es₁ : EditSession}
    (h : EditSession.save s a pk = .ok (s₁, es₁)) :
    ∃ es, findEditSession s pk = some es ∧ es.status = .Open ∧
      es₁ = { es with status := .Saved,
                      timestamp := { es.timestamp with updated_at := s.clock } } ∧
      s₁ = { s with
              edit_sessions :=
                s.edit_sessions.map (fun e => if e.pk == pk then es₁ else e),
              history := recordHistory s.history
                { label := "edit_session.save", message := "Edit Session saved",
                  actor := a, snapshot := none, tenancy := es.tenancy,
                  timestamp := s.clock },
              notifications := s.notifications ++ ["edit_session.save"],
              clock := s.clock + 1 } := by
  unfold EditSession.save at h
  rcases hfind : findEditSession s pk with _ | es
  · simp only [hfind] at h
    exact absurd h (by simp)
  · simp only [hfind] at h
    by_cases hst : es.status = .Open
    · rw [if_pos hst] at h
      simp only [Except.ok.injEq, Prod.mk.injEq] at h
      obtain ⟨hs₁, hes₁⟩ := h
      refine ⟨es, rfl, hst, hes₁.symm, ?_⟩
      rw [← hs₁, ← hes₁]
    · rw [if_neg hst] at h
      exact absurd h (by simp)

theorem apply_ok_inv {P : Type} {s : SIState P} {a : HistoryActor} {cs_pk : Pk}
    {s₁ : SIState P} {cs₁ : ChangeSet}
    (h : ChangeSet.apply s a cs_pk = .ok (s₁, cs₁)) :
    ∃ cs, findChangeSet s cs_pk = some cs ∧ cs.status = .Open ∧
      (pendingIds s cs_pk).any (headConflict s cs.started_at) = false ∧
      cs₁ = { cs with status := .Applied, finished_at := some s.clock } ∧
      s₁ = { s with
              rows := s.rows ++ promoteRows
                ((pendingIds s cs_pk).filterMap (pendingSrc s cs_pk))
                s.next_row_pk s.clock,
              change_sets :=
                s.change_sets.map (fun c => if c.pk == cs_pk then cs₁ else c),
              history := recordHistory s.history
                { label := "change_set.apply", message := "Change Set applied",
                  actor := a, snapshot := none, tenancy := cs.tenancy,
                  timestamp := s.clock },
              notifications := s.notifications ++ ["change_set.apply"],
              next_row_pk := s.next_row_pk +
                ((pendingIds s cs_pk).filterMap (pendingSrc s cs_pk)).length,
              clock := s.clock + 1 } := by
  unfold ChangeSet.apply at h
  rcases hfind : findChangeSet s cs_pk with _ | cs
  · simp only [hfind] at h
    exact absurd h (by simp)
  · simp only [hfind] at h
    by_cases hst : cs.status = .Open
    · rw [if_pos hst] at h
      by_cases hconf :
          (pendingIds s cs_pk).any (headConflict s cs.started_at) = true
      · rw [if_pos hconf] at h
        exact absurd h (by simp)
      · rw [if_neg hconf] at h
        simp only [Except.ok.injEq, Prod.mk.injEq] at h
        obtain ⟨hs₁, hcs₁⟩ := h
        refine ⟨cs, rfl, hst, Bool.not_eq_true _ ▸ hconf, hcs₁.symm, ?_⟩
        rw [← hs₁, ← hcs₁]
    · rw [if_neg hst] at h
      exact absurd h (by simp)

/-! ### Claim theorems -/

/-- Claim C1: for every entity payload drafted under an edit session, from
any well-formed starting state: creating a ChangeSet (status Open), opening
an EditSession under it, creating the entity under visibility `(cs, es)`,
saving the session and applying the change set all succeed, and resolving
the entity's logical id under head visibility then returns a row with the
same logical id and the same payload as the drafted row but a different
(fresh, strictly later) surrogate key, while the ChangeSet's status equals
Applied. -/
theorem si_C1 {P : Type} (s₀ : SIState P) (h_wf : WellFormed s₀)
    (tn : Tenancy) (a : HistoryActor) (cs_name es_name : String)
    (payload : P) :
    ∃ s₅ draft cs' head,
      c1Scenario s₀ tn a cs_name es_name payload = .ok (s₅, draft, cs') ∧
      cs'.status = .Applied ∧
      resolve s₅.rows headVisibility draft.id = some head ∧
      head.id = draft.id ∧ head.payload = payload ∧
      draft.payload = payload ∧ head.pk ≠ draft.pk := by
  obtain ⟨hR, hC, hE⟩ := h_wf
  -- step 1: create the change set
  let CS : ChangeSet :=
    { pk := (s₀.next_change_set_pk : Int), name := cs_name, note := none,
      status := .Open, tenancy := tn, started_at := s₀.clock,
      finished_at := none }
  let S₁ : SIState P :=
    { s₀ with
        change_sets := s₀.change_sets ++ [CS],
        history := recordHistory s₀.history
          { label := "change_set.create", message := "Change Set created",
            actor := a, snapshot := none, tenancy := tn,
            timestamp := s₀.clock },
        notifications := s₀.notifications ++ ["change_set.create"],
        next_change_set_pk := s₀.next_change_set_pk + 1,
        clock := s₀.clock + 1 }
  have h₁ : ChangeSet.create s₀ tn a cs_name none = (S₁, CS) := rfl
  have hCSopen : CS.status = .Open := rfl
  have hfindCS : findChangeSet S₁ CS.pk = some CS := by
    show (s₀.change_sets ++ [CS]).find? (fun c => c.pk == CS.pk) = some CS
    exact find?_append_singleton
      (fun c hc => int_beq_false_of_lt (hC c hc)) (beq_self_eq_true CS.pk)
  -- step 2: open the edit session
  let ES : EditSession :=
    { pk := (S₁.next_edit_session_pk : Int),
      id := (S₁.next_edit_session_pk : Int), name := es_name, note := none,
      status := .Open, change_set_pk := CS.pk, tenancy := tn,
      timestamp := { created_at := S₁.clock, updated_at := S₁.clock } }
  let S₂ : SIState P :=
    { S₁ with
        edit_sessions := S₁.edit_sessions ++ [ES],
        history := recordHistory S₁.history
          { label := "edit_session.create",
            message := "Edit Session created", actor := a, snapshot := none,
            tenancy := tn, timestamp := S₁.clock },
        notifications := S₁.notifications ++ ["edit_session.create"],
        next_edit_session_pk := S₁.next_edit_session_pk + 1,
        clock := S₁.clock + 1 }
  have h₂ : EditSession.new S₁ tn a CS.pk es_name none = .ok (S₂, ES) := by
    unfold EditSession.new
    simp only [hfindCS]
    rfl
  -- step 3: draft the entity under (CS, ES)
  let draft : Row P :=
    { pk := S₂.next_row_pk, id := S₂.next_id,
      visibility := { change_set_pk := CS.pk, edit_session_pk := ES.pk,
                      deleted := false },
      tenancy := tn, created_at := S₂.clock, updated_at := S₂.clock,
      payload := payload }
  let S₃ : SIState P :=
    { S₂ with
        rows := S₂.rows ++ [draft],
        history := recordHistory S₂.history
          { label := "entity.create", message := "Entity created",
            actor := a, snapshot := some payload, tenancy := tn,
            timestamp := S₂.clock },
        notifications := S₂.notifications ++ ["entity.create"],
        next_row_pk := S₂.next_row_pk + 1,
        next_id := S₂.next_id + 1,
        clock := S₂.clock + 1 }
  have h₃ : createRow S₂ tn a
      { change_set_pk := CS.pk, edit_session_pk := ES.pk, deleted := false }
      payload = (S₃, draft) := rfl
  -- step 4: save the edit session
  let ES' : EditSession :=
    { ES with status := .Saved,
              timestamp := { ES.timestamp with updated_at := S₃.clock } }
  let S₄ : SIState P :=
    { S₃ with
        edit_sessions :=
          S₃.edit_sessions.map (fun e => if e.pk == ES.pk then ES' else e),
        history := recordHistory S₃.history
          { label := "edit_session.save", message := "Edit Session saved",
            actor := a, snapshot := none, tenancy := ES.tenancy,
            timestamp := S₃.clock },
        notifications := S₃.notifications ++ ["edit_session.save"],
        clock := S₃.clock + 1 }
  have hEne : ∀ e ∈ s₀.edit_sessions, (e.pk == ES.pk) = false :=
    fun e he => int_beq_false_of_lt (hE e he)
  have hfindES₃ : findEditSession S₃ ES.pk = some ES := by
    show (s₀.edit_sessions ++ [ES]).find? (fun e => e.pk == ES.pk) = some ES
    exact find?_append_singleton hEne (beq_self_eq_true ES.pk)
  have hESopen : ES.status = .Open := rfl
  have h₄ : EditSession.save S₃ a ES.pk = .ok (S₄, ES') := by
    unfold EditSession.save
    simp only [hfindES₃]
    rfl
  -- step 5: apply the change set
  have hfindCS₄ : findChangeSet S₄ CS.pk = some CS := hfindCS
  have hSess₄ : S₄.edit_sessions = s₀.edit_sessions ++ [ES'] := by
    show (s₀.edit_sessions ++ [ES]).map
      (fun e => if e.pk == ES.pk then ES' else e) = s₀.edit_sessions ++ [ES']
    rw [List.map_append,
      map_replace_of_ne (fun e he => ne_of_lt (hE e he)) ES']
    simp
  have hfindES₄ : findEditSession S₄ ES.pk = some ES' := by
    show S₄.edit_sessions.find? (fun e => e.pk == ES.pk) = some ES'
    rw [hSess₄]
    exact find?_append_singleton hEne (beq_self_eq_true ES.pk)
  have hSaved : sessionSaved S₄ ES.pk = true := by
    unfold sessionSaved
    simp only [hfindES₄]
    rfl
  -- projection bridges for the draft row and the session/change-set keys
  have hd_cs : draft.visibility.change_set_pk = CS.pk := rfl
  have hd_es : draft.visibility.edit_session_pk = ES.pk := rfl
  have hd_del : draft.visibility.deleted = false := rfl
  have hRows₄ : S₄.rows = s₀.rows ++ [draft] := rfl
  have fCS : ∀ r ∈ s₀.rows, (r.visibility.change_set_pk == CS.pk) = false :=
    fun r hr => int_beq_false_of_lt (hR r hr).2.2
  have fId : ∀ r ∈ s₀.rows, (r.id == draft.id) = false :=
    fun r hr => nat_beq_false_of_lt (hR r hr).2.1
  have fCSsent : (CS.pk == NO_CHANGE_SET_PK) = false := by
    apply beq_eq_false_iff_ne.mpr
    show (s₀.next_change_set_pk : Int) ≠ NO_CHANGE_SET_PK
    unfold NO_CHANGE_SET_PK
    omega
  have fESsent : (ES.pk == NO_EDIT_SESSION_PK) = false := by
    apply beq_eq_false_iff_ne.mpr
    show (s₀.next_edit_session_pk : Int) ≠ NO_EDIT_SESSION_PK
    unfold NO_EDIT_SESSION_PK
    omega
  have hPendOld : ∀ r ∈ s₀.rows, pendingRow S₄ CS.pk r = false := by
    intro r hr
    unfold pendingRow
    rw [fCS r hr]
    simp
  have hPendDraft : pendingRow S₄ CS.pk draft = true := by
    simp [pendingRow, hd_cs, hd_es, hd_del, hSaved]
  have hFilter : S₄.rows.filter (pendingRow S₄ CS.pk) = [draft] := by
    rw [hRows₄, List.filter_append,
      List.filter_eq_nil_iff.mpr (fun r hr => by simp [hPendOld r hr])]
    simp [hPendDraft]
  have hPendingIds : pendingIds S₄ CS.pk = [draft.id] := by
    unfold pendingIds
    rw [hFilter]
    rw [List.map_cons, List.map_nil,
      List.dedup_cons_of_not_mem (List.not_mem_nil _), List.dedup_nil]
  have hConf : headConflict S₄ CS.started_at draft.id = false := by
    unfold headConflict
    rw [hRows₄, List.any_append, Bool.or_eq_false_iff]
    constructor
    · rw [List.any_eq_false]
      intro r hr
      simp [fId r hr]
    · simp only [List.any_cons, List.any_nil, Bool.or_false]
      simp [hd_cs, fCSsent]
  have hAnyFalse : (pendingIds S₄ CS.pk).any
      (headConflict S₄ CS.started_at) = false := by
    rw [hPendingIds]
    simp [hConf]
  have hSrc : pendingSrc S₄ CS.pk draft.id = some draft := by
    unfold pendingSrc
    rw [hRows₄]
    rw [latestBy_append_left (fun r hr => by simp [hPendOld r hr])]
    simp [latestBy, hPendDraft]
  have hSrcs : (pendingIds S₄ CS.pk).filterMap (pendingSrc S₄ CS.pk) =
      [draft] := by
    rw [hPendingIds]
    simp [List.filterMap_cons, hSrc]
  let HEAD : Row P :=
    { draft with pk := S₄.next_row_pk,
                 visibility := { change_set_pk := NO_CHANGE_SET_PK,
                                 edit_session_pk := NO_EDIT_SESSION_PK,
                                 deleted := draft.visibility.deleted },
                 updated_at := S₄.clock }
  let CS' : ChangeSet :=
    { CS with status := .Applied, finished_at := some S₄.clock }
  let S₅ : SIState P :=
    { S₄ with
        rows := S₄.rows ++ [HEAD],
        change_sets :=
          S₄.change_sets.map (fun c => if c.pk == CS.pk then CS' else c),
        history := recordHistory S₄.history
          { label := "change_set.apply", message := "Change Set applied",
            actor := a, snapshot := none, tenancy := CS.tenancy,
            timestamp := S₄.clock },
        notifications := S₄.notifications ++ ["change_set.apply"],
        next_row_pk := S₄.next_row_pk + 1,
        clock := S₄.clock + 1 }
  have h₅ : ChangeSet.apply S₄ a CS.pk = .ok (S₅, CS') := by
    unfold ChangeSet.apply
    simp only [hfindCS₄]
    rw [hAnyFalse]
    simp only [Bool.false_eq_true, if_false]
    rw [hSrcs]
    rw [if_true]
    rfl
  -- resolving the drafted id under head returns the promoted row
  have hNoOld : ∀ r ∈ s₀.rows ++ [draft],
      r.liveMatch NO_CHANGE_SET_PK NO_EDIT_SESSION_PK false draft.id =
        false := by
    intro r hr
    rcases List.mem_append.mp hr with hr | hr
    · simp [Row.liveMatch, fId r hr]
    · have hrd : r = draft := List.mem_singleton.mp hr
      subst hrd
      simp [Row.liveMatch, hd_cs, fCSsent]
  have hHEADmatch : HEAD.liveMatch NO_CHANGE_SET_PK NO_EDIT_SESSION_PK
      false draft.id = true := by
    have h1 : HEAD.id = draft.id := rfl
    have h2 : HEAD.visibility.change_set_pk = NO_CHANGE_SET_PK := rfl
    have h3 : HEAD.visibility.edit_session_pk = NO_EDIT_SESSION_PK := rfl
    have h4 : HEAD.visibility.deleted = false := rfl
    simp [Row.liveMatch, h1, h2, h3, h4]
  have hResolve : resolve S₅.rows headVisibility draft.id = some HEAD := by
    show latestBy
      (fun r => r.liveMatch NO_CHANGE_SET_PK NO_EDIT_SESSION_PK false draft.id)
      ((s₀.rows ++ [draft]) ++ [HEAD]) = some HEAD
    rw [latestBy_append_left hNoOld]
    simp [latestBy, hHEADmatch]
  have hScen : c1Scenario s₀ tn a cs_name es_name payload =
      .ok (S₅, draft, CS') := by
    simp only [c1Scenario, h₁, h₂, h₃, h₄, h₅]
  refine ⟨S₅, draft, CS', HEAD, hScen, rfl, hResolve, rfl, rfl, rfl, ?_⟩
  show s₀.next_row_pk + 1 ≠ s₀.next_row_pk
  omega

/-- Claim C1 witness: the full scenario from a fresh world with payload 7. -/
theorem si_C1_witness :
    WellFormed (initState Nat) ∧
    ∃ s₅ draft cs' head,
      c1Scenario (initState Nat) .universal .systemInit "C1" "E1" 7 =
        .ok (s₅, draft, cs') ∧
      cs'.status = .Applied ∧
      resolve s₅.rows headVisibility draft.id = some head ∧
      head.id = draft.id ∧ head.payload = 7 ∧ draft.payload = 7 ∧
      head.pk ≠ draft.pk := by
  have hwf : WellFormed (initState Nat) := by
    refine ⟨?_, ?_, ?_⟩ <;> intro x hx <;> simp [initState] at hx
  exact ⟨hwf, si_C1 (initState Nat) hwf .universal .systemInit "C1" "E1" 7⟩

/-- Claim C2: for every unit of work, notifications enqueued during the unit
of work reach the message bus only when `commit()` succeeds, and then all of
them are delivered exactly once, in enqueue order (the bus log is extended by
exactly the enqueued sequence); when the commit fails, or the unit of work is
rolled back or dropped without commit, the bus is untouched and none of the
enqueued notifications is ever delivered. -/
theorem si_C2 (E : Type) (es : List E) (b : Bus E) :
    (commitUnit (es.foldl enqueue_notification (beginUnit E)) true b).1 =
      .ok () ∧
    (commitUnit (es.foldl enqueue_notification (beginUnit E)) true b).2.log =
      b.log ++ es ∧
    commitUnit (es.foldl enqueue_notification (beginUnit E)) false b =
      (.error .StorageError, b) ∧
    rollbackUnit (es.foldl enqueue_notification (beginUnit E)) b = b := by
  refine ⟨rfl, ?_, rfl, rfl⟩
  simp only [commitUnit, if_true]
  rw [flushAll_log, enqueue_foldl_buffer]
  simp [beginUnit]

/-- Claim C4: a row drafted under an edit session (its stored
`edit_session_pk` is not the "no draft" sentinel) is never returned when
resolving with visibility `(cs, no-draft)` nor with head visibility
`(head, no-draft)` — both resolution paths only ever return rows stored at
the no-draft sentinel.  In particular this holds for a row freshly written
by `createRow` under `(cs, es)`, before (or after) `EditSession.save`. -/
theorem si_C4 {P : Type} (s : SIState P) (tn : Tenancy) (a : HistoryActor)
    (cs_pk es_pk : Pk) (payload : P) (rows : List (Row P))
    (incl incl' : Bool) (cs' : Pk) (id : Nat)
    (hes : es_pk ≠ NO_EDIT_SESSION_PK) :
    resolve rows
        { change_set_pk := cs', edit_session_pk := NO_EDIT_SESSION_PK,
          deleted := incl } id ≠
      some (createRow s tn a
        { change_set_pk := cs_pk, edit_session_pk := es_pk, deleted := false }
        payload).2 ∧
    resolve rows
        { change_set_pk := NO_CHANGE_SET_PK,
          edit_session_pk := NO_EDIT_SESSION_PK, deleted := incl' } id ≠
      some (createRow s tn a
        { change_set_pk := cs_pk, edit_session_pk := es_pk, deleted := false }
        payload).2 := by
  constructor <;> intro h <;> exact hes (resolve_no_draft rfl h)

/-- Claim C4 witness: the concrete drafted sample row (stored under edit
session 0) is not returned by change-set-level or head resolution over the
sample world's rows. -/
theorem si_C4_witness :
    ((0 : Pk) ≠ NO_EDIT_SESSION_PK) ∧
    resolve sampleDrafted.1.rows
        { change_set_pk := 0, edit_session_pk := NO_EDIT_SESSION_PK,
          deleted := false } 0 ≠ some sampleDrafted.2 ∧
    resolve sampleDrafted.1.rows
        { change_set_pk := NO_CHANGE_SET_PK,
          edit_session_pk := NO_EDIT_SESSION_PK, deleted := false } 0 ≠
      some sampleDrafted.2 := by
  refine ⟨by decide, ?_, ?_⟩
  · exact (si_C4 sampleOpen.1 .universal .systemInit 0 0 7
      sampleDrafted.1.rows false false 0 0 (by decide)).1
  · exact (si_C4 sampleOpen.1 .universal .systemInit 0 0 7
      sampleDrafted.1.rows false false 0 0 (by decide)).2

/-- Claim C5: `EditSession.save` succeeds only when the session is currently
Open; on success it transitions the session Open→Saved and stamps
`updated_at` with the store's timestamp, and a second `save` on the same
(now Saved) session fails with `InvalidTransition`. -/
theorem si_C5 {P : Type} (s : SIState P) (a : HistoryActor) (pk : Pk)
    (s₁ : SIState P) (es₁ : EditSession)
    (h : EditSession.save s a pk = .ok (s₁, es₁)) :
    (∃ es, findEditSession s pk = some es ∧ es.status = .Open) ∧
    es₁.status = .Saved ∧ es₁.timestamp.updated_at = s.clock ∧
    EditSession.save s₁ a pk = .error .InvalidTransition := by
  obtain ⟨es, hfind, hopen, hes₁, hs₁⟩ := save_ok_inv h
  have hfind' : s.edit_sessions.find? (fun e => e.pk == pk) = some es := hfind
  have hpk : (es.pk == pk) = true := by
    have hp := List.find?_some hfind'
    simpa using hp
  refine ⟨⟨es, hfind, hopen⟩, by rw [hes₁], by rw [hes₁], ?_⟩
  have hfind₁ : findEditSession s₁ pk = some es₁ := by
    rw [hs₁]
    show (s.edit_sessions.map (fun e => if e.pk == pk then es₁ else e)).find?
      (fun e => e.pk == pk) = some es₁
    rw [List.find?_map]
    have hcomp :
        ((fun e : EditSession => e.pk == pk) ∘
          (fun e => if e.pk == pk then es₁ else e)) =
        (fun e : EditSession => e.pk == pk) := by
      funext e
      by_cases he : (e.pk == pk) = true
      · have he' : e.pk = pk := by simpa using he
        have hpk' : es.pk = pk := by simpa using hpk
        simp [Function.comp_apply, he', hes₁, hpk']
      · have he' : ¬ e.pk = pk := by simpa using he
        simp [Function.comp_apply, he']
    rw [hcomp, hfind']
    have hpk' : es.pk = pk := by simpa using hpk
    simp [hpk']
  have hnot : ¬ es₁.status = .Open := by
    rw [hes₁]
    intro hcon
    exact absurd hcon (by simp)
  unfold EditSession.save
  simp only [hfind₁]
  rw [if_neg hnot]

/-- Claim C5 witness: saving the sample drafted world's open edit session
succeeds with status Saved, and saving it a second time fails with
`InvalidTransition`. -/
theorem si_C5_witness :
    EditSession.save sampleDrafted.1 .systemInit 0 =
      .ok (sampleSaved.1, sampleSaved.2) ∧
    sampleSaved.2.status = .Saved ∧
    EditSession.save sampleSaved.1 .systemInit 0 =
      .error .InvalidTransition := by
  have h := si_C5 sampleDrafted.1 .systemInit 0 sampleSaved.1 sampleSaved.2
    (by rfl)
  exact ⟨by rfl, h.2.1, h.2.2.2⟩

/-- Claim C6: relating a prop under a designated parent prop of a leaf
(non-container) kind fails with the structural error `InvalidRelation` — not
a generic storage error — and the relation table is left unchanged (no
relation row is created). -/
theorem si_C6 (props : List PropRow) (relations : List (Nat × Nat))
    (child_id parent_id : Nat) (parent : PropRow)
    (hfind : props.find? (fun p => p.id == parent_id) = some parent)
    (hleaf : parent.kind.isContainer = false) :
    setParentProp props relations child_id parent_id =
      (.error .InvalidRelation, relations) := by
  unfold setParentProp
  rw [hfind]
  simp [hleaf]

/-- Claim C6 witness: parenting the object-kind prop 2 under the string-kind
(leaf) prop 1 fails with `InvalidRelation` and creates no relation row. -/
theorem si_C6_witness :
    samplePropList.find? (fun p => p.id == 1) =
      some { id := 1, name := "leafParent", kind := .string } ∧
    PropKind.isContainer .string = false ∧
    setParentProp samplePropList [] 2 1 = (.error .InvalidRelation, []) := by
  refine ⟨by rfl, by rfl, ?_⟩
  exact si_C6 samplePropList [] 2 1
    { id := 1, name := "leafParent", kind := .string } (by rfl) (by rfl)

/-- Claim C7, as stated, is false on the code: `create_func_stub`
(`src/lib/dal/src/func/authoring/create.rs`) detects the duplicate name with
a `Func::find_by_name` pre-check and fails with
`FuncAuthoringError::FuncNameExists` — an application-level error, not a
storage-layer constraint violation.  At the concrete input (a table already
holding a func named "a"), creating another func named "a" fails with
`FuncNameExists "a"`, which is not a `Storage` error; no new row is
written. -/
theorem si_C7_counterexample :
    (create_func_stub sampleFuncTable (some "a") "gen" "code" "main").1 =
      .error (.FuncNameExists "a") ∧
    resultIsStorage
      (create_func_stub sampleFuncTable (some "a") "gen" "code" "main").1 =
      false ∧
    (create_func_stub sampleFuncTable (some "a") "gen" "code" "main").2 =
      sampleFuncTable := by
  exact ⟨rfl, rfl, rfl⟩

/-- Claim C7 (amended): creating a second func with the same name fails with
`FuncAuthoringError::FuncNameExists` (raised by the `find_by_name` pre-check
before any write), and no new row is written — the funcs table is returned
unchanged. -/
theorem si_C7 (t : FuncTable) (name fresh_name code handler : String)
    (f : Func) (hdup : find_by_name t name = some f) :
    create_func_stub t (some name) fresh_name code handler =
      (.error (.FuncNameExists name), t) := by
  unfold create_func_stub
  simp only [Option.getD_some, hdup]

/-- Claim C7 witness: the duplicate-name pre-check fires on the sample
table. -/
theorem si_C7_witness :
    find_by_name sampleFuncTable "a" =
      some { id := 0, name := "a", handler := none, code := none } ∧
    create_func_stub sampleFuncTable (some "a") "gen" "code" "main" =
      (.error (.FuncNameExists "a"), sampleFuncTable) := by
  refine ⟨by rfl, ?_⟩
  exact si_C7 sampleFuncTable "a" "gen" "code" "main"
    { id := 0, name := "a", handler := none, code := none } (by rfl)

/-- Claim C10: on a successful `EditSession.save`, the only fields of the
returned session value that change are `status` (set to Saved) and
`timestamp.updated_at` (set to the value returned by the store — the model's
transaction clock); `pk`, `id`, `name`, `note`, `change_set_pk`, `tenancy`
and `created_at` are unchanged. -/
theorem si_C10 {P : Type} (s : SIState P) (a : HistoryActor) (pk : Pk)
    (s₁ : SIState P) (es₁ : EditSession)
    (h : EditSession.save s a pk = .ok (s₁, es₁)) :
    ∃ es, findEditSession s pk = some es ∧
      es₁.status = .Saved ∧ es₁.timestamp.updated_at = s.clock ∧
      es₁.pk = es.pk ∧ es₁.id = es.id ∧ es₁.name = es.name ∧
      es₁.note = es.note ∧ es₁.change_set_pk = es.change_set_pk ∧
      es₁.tenancy = es.tenancy ∧
      es₁.timestamp.created_at = es.timestamp.created_at := by
  obtain ⟨es, hfind, hopen, hes₁, hs₁⟩ := save_ok_inv h
  subst hes₁
  exact ⟨es, hfind, rfl, rfl, rfl, rfl, rfl, rfl, rfl, rfl, rfl⟩

/-- Claim C10 witness: the frame condition instantiated on the sample
world's successful save. -/
theorem si_C10_witness :
    EditSession.save sampleDrafted.1 .systemInit 0 =
      .ok (sampleSaved.1, sampleSaved.2) ∧
    ∃ es, findEditSession sampleDrafted.1 0 = some es ∧
      sampleSaved.2.status = .Saved ∧
      sampleSaved.2.timestamp.updated_at = sampleDrafted.1.clock ∧
      sampleSaved.2.pk = es.pk ∧ sampleSaved.2.id = es.id ∧
      sampleSaved.2.name = es.name ∧ sampleSaved.2.note = es.note ∧
      sampleSaved.2.change_set_pk = es.change_set_pk ∧
      sampleSaved.2.tenancy = es.tenancy ∧
      sampleSaved.2.timestamp.created_at = es.timestamp.created_at := by
  exact ⟨by rfl,
    si_C10 sampleDrafted.1 .systemInit 0 sampleSaved.1 sampleSaved.2 (by rfl)⟩

/-- Claim C3: no write operation ever mutates an existing `Row` in place.
Under the store's key-allocation invariant (every stored surrogate key is
below the allocator), a successful `update`, `soft_delete` or change-set
`apply` promotion leaves every previously stored version in place unchanged
(the new row list is the old list with new versions appended), and every
inserted version carries a fresh, strictly higher surrogate key while
copying the `logical_id` forward from a previously stored row. -/
theorem si_C3 {P : Type} (s : SIState P)
    (hfresh : ∀ r ∈ s.rows, r.pk < s.next_row_pk)
    (tn : Tenancy) (a : HistoryActor) (v : Visibility) (id : Nat)
    (mutator : P → P) (cs_pk : Pk) :
    (∀ s' r', updateRow s tn a v id mutator = .ok (s', r') →
      s'.rows = s.rows ++ [r'] ∧ r'.id = id ∧
      (∀ r ∈ s.rows, r.pk < r'.pk) ∧ ∃ src ∈ s.rows, r'.id = src.id) ∧
    (∀ s' r', softDeleteRow s tn a v id = .ok (s', r') →
      s'.rows = s.rows ++ [r'] ∧ r'.id = id ∧
      (∀ r ∈ s.rows, r.pk < r'.pk) ∧
      ∃ src ∈ s.rows, r'.id = src.id ∧ r'.payload = src.payload) ∧
    (∀ s' cs', ChangeSet.apply s a cs_pk = .ok (s', cs') →
      ∃ new, s'.rows = s.rows ++ new ∧
        ∀ r' ∈ new, (∀ r ∈ s.rows, r.pk < r'.pk) ∧
          ∃ src ∈ s.rows, r'.id = src.id ∧ r'.payload = src.payload) := by
  refine ⟨?_, ?_, ?_⟩
  · intro s' r' h
    unfold updateRow at h
    rcases hres : resolve s.rows v id with _ | r
    · simp only [hres] at h
      exact absurd h (by simp)
    · simp only [hres] at h
      simp only [Except.ok.injEq, Prod.mk.injEq] at h
      obtain ⟨hs', hr'⟩ := h
      have hmem := resolve_mem hres
      refine ⟨by rw [← hs', ← hr'], ?_, ?_, r, hmem.1, ?_⟩
      · rw [← hr']
        exact hmem.2
      · intro r₀ hr₀
        rw [← hr']
        exact hfresh r₀ hr₀
      · rw [← hr']
  · intro s' r' h
    unfold softDeleteRow at h
    rcases hres : resolve s.rows v id with _ | r
    · simp only [hres] at h
      exact absurd h (by simp)
    · simp only [hres] at h
      simp only [Except.ok.injEq, Prod.mk.injEq] at h
      obtain ⟨hs', hr'⟩ := h
      have hmem := resolve_mem hres
      refine ⟨by rw [← hs', ← hr'], ?_, ?_, r, hmem.1, ?_, ?_⟩
      · rw [← hr']
        exact hmem.2
      · intro r₀ hr₀
        rw [← hr']
        exact hfresh r₀ hr₀
      · rw [← hr']
      · rw [← hr']
  · intro s' cs' h
    obtain ⟨cs, hfind, hopen, hconf, hcs', hs'⟩ := apply_ok_inv h
    refine ⟨promoteRows ((pendingIds s cs_pk).filterMap (pendingSrc s cs_pk))
      s.next_row_pk s.clock, by rw [hs'], ?_⟩
    intro r' hr'
    obtain ⟨hle, _, _, src, hsrc, hid, hpay⟩ := promoteRows_mem hr'
    obtain ⟨i, hi, hpick⟩ := List.mem_filterMap.mp hsrc
    have hsrc_mem : src ∈ s.rows := (latestBy_mem hpick).1
    exact ⟨fun r₀ hr₀ => Nat.lt_of_lt_of_le (hfresh r₀ hr₀) hle,
      src, hsrc_mem, hid, hpay⟩

/-- Claim C3 witness: updating the promoted head row of the sample world
appends one fresh-keyed version and leaves the old rows unchanged. -/
theorem si_C3_witness :
    (∀ r ∈ sampleApplied.1.rows, r.pk < sampleApplied.1.next_row_pk) ∧
    updateRow sampleApplied.1 .universal .systemInit
        { change_set_pk := -1, edit_session_pk := -1, deleted := false } 0
        (fun x => x + 1) = .ok (sampleUpdated.1, sampleUpdated.2) ∧
    sampleUpdated.1.rows = sampleApplied.1.rows ++ [sampleUpdated.2] := by
  have h := (si_C3 sampleApplied.1 (by decide) .universal .systemInit
    { change_set_pk := -1, edit_session_pk := -1, deleted := false } 0
    (fun x => x + 1) 0).1 sampleUpdated.1 sampleUpdated.2 (by rfl)
  exact ⟨by decide, by rfl, h.1⟩

/-- Claim C8: every successful mutation — change-set create, edit-session
open, edit-session save, entity create, update, soft delete, change-set
apply — appends exactly one `HistoryEvent` to the ledger within the same
atomic step (the model of the shared transaction), leaving every earlier
ledger entry in place; the ledger itself is only ever extended by
`recordHistory`, which has no update or delete counterpart. -/
theorem si_C8 {P : Type} (s : SIState P) (tn : Tenancy) (a : HistoryActor)
    (v : Visibility) (payload : P) (id : Nat) (mutator : P → P)
    (cs_pk es_pk : Pk) (nm nm₂ : String) (note note₂ : Option String) :
    (∃ e, (ChangeSet.create s tn a nm note).1.history = s.history ++ [e]) ∧
    (∀ s₁ es, EditSession.new s tn a cs_pk nm₂ note₂ = .ok (s₁, es) →
      ∃ e, s₁.history = s.history ++ [e]) ∧
    (∀ s₁ es, EditSession.save s a es_pk = .ok (s₁, es) →
      ∃ e, s₁.history = s.history ++ [e]) ∧
    (∃ e, (createRow s tn a v payload).1.history = s.history ++ [e]) ∧
    (∀ s₁ r, updateRow s tn a v id mutator = .ok (s₁, r) →
      ∃ e, s₁.history = s.history ++ [e]) ∧
    (∀ s₁ r, softDeleteRow s tn a v id = .ok (s₁, r) →
      ∃ e, s₁.history = s.history ++ [e]) ∧
    (∀ s₁ cs, ChangeSet.apply s a cs_pk = .ok (s₁, cs) →
      ∃ e, s₁.history = s.history ++ [e]) := by
  refine ⟨⟨_, rfl⟩, ?_, ?_, ⟨_, rfl⟩, ?_, ?_, ?_⟩
  · intro s₁ es h
    unfold EditSession.new at h
    rcases hfind : findChangeSet s cs_pk with _ | cs
    · simp only [hfind] at h
      exact absurd h (by simp)
    · simp only [hfind] at h
      by_cases hst : cs.status = .Open
      · rw [if_pos hst] at h
        simp only [Except.ok.injEq, Prod.mk.injEq] at h
        obtain ⟨hs₁, _⟩ := h
        subst hs₁
        exact ⟨_, rfl⟩
      · rw [if_neg hst] at h
        exact absurd h (by simp)
  · intro s₁ es h
    obtain ⟨_, _, _, _, hs₁⟩ := save_ok_inv h
    subst hs₁
    exact ⟨_, rfl⟩
  · intro s₁ r h
    unfold updateRow at h
    rcases hres : resolve s.rows v id with _ | r₀
    · simp only [hres] at h
      exact absurd h (by simp)
    · simp only [hres] at h
      simp only [Except.ok.injEq, Prod.mk.injEq] at h
      obtain ⟨hs₁, _⟩ := h
      subst hs₁
      exact ⟨_, rfl⟩
  · intro s₁ r h
    unfold softDeleteRow at h
    rcases hres : resolve s.rows v id with _ | r₀
    · simp only [hres] at h
      exact absurd h (by simp)
    · simp only [hres] at h
      simp only [Except.ok.injEq, Prod.mk.injEq] at h
      obtain ⟨hs₁, _⟩ := h
      subst hs₁
      exact ⟨_, rfl⟩
  · intro s₁ cs h
    obtain ⟨_, _, _, _, _, hs₁⟩ := apply_ok_inv h
    subst hs₁
    exact ⟨_, rfl⟩

/-- Claim C8 witness: saving the sample drafted world's edit session appends
exactly one ledger entry. -/
theorem si_C8_witness :
    EditSession.save sampleDrafted.1 .systemInit 0 =
      .ok (sampleSaved.1, sampleSaved.2) ∧
    ∃ e, sampleSaved.1.history = sampleDrafted.1.history ++ [e] := by
  refine ⟨by rfl, ?_⟩
  exact (si_C8 sampleDrafted.1 .universal .systemInit
    { change_set_pk := 0, edit_session_pk := 0, deleted := false } 7 0
    (fun x => x) 0 0 "n" "n" none none).2.2.1 sampleSaved.1 sampleSaved.2
    (by rfl)

/-- Claim C9: the reserved "no draft" edit-session sentinel is the concrete
primary-key value `-1` (`NO_EDIT_SESSION_PK`, a total integer column, not a
NULL), and every row promoted to head by a successful `ChangeSet.apply`
persists both sentinel values — `NO_CHANGE_SET_PK` as its `change_set_pk`
and `NO_EDIT_SESSION_PK` as its `edit_session_pk` — in its stored
visibility triple. -/
theorem si_C9 {P : Type} (s : SIState P) (a : HistoryActor) (cs_pk : Pk)
    (s₁ : SIState P) (cs₁ : ChangeSet)
    (h : ChangeSet.apply s a cs_pk = .ok (s₁, cs₁)) :
    NO_EDIT_SESSION_PK = -1 ∧ NO_CHANGE_SET_PK = -1 ∧
    ∀ r' ∈ s₁.rows.drop s.rows.length,
      r'.visibility.change_set_pk = NO_CHANGE_SET_PK ∧
      r'.visibility.edit_session_pk = NO_EDIT_SESSION_PK := by
  obtain ⟨cs, hfind, hopen, hconf, hcs₁, hs₁⟩ := apply_ok_inv h
  refine ⟨rfl, rfl, ?_⟩
  intro r' hr'
  rw [hs₁] at hr'
  simp only [List.drop_left] at hr'
  obtain ⟨_, hcs, hes, _⟩ := promoteRows_mem hr'
  exact ⟨hcs, hes⟩

/-- Claim C9 witness: applying the sample change set promotes the drafted
row with both `-1` sentinels persisted. -/
theorem si_C9_witness :
    ChangeSet.apply sampleSaved.1 .systemInit 0 =
      .ok (sampleApplied.1, sampleApplied.2) ∧
    (NO_EDIT_SESSION_PK = -1 ∧ NO_CHANGE_SET_PK = -1 ∧
      ∀ r' ∈ sampleApplied.1.rows.drop sampleSaved.1.rows.length,
        r'.visibility.change_set_pk = NO_CHANGE_SET_PK ∧
        r'.visibility.edit_session_pk = NO_EDIT_SESSION_PK) := by
  exact ⟨by rfl,
    si_C9 sampleSaved.1 .systemInit 0 sampleApplied.1 sampleApplied.2
      (by rfl)⟩

end SI

